import Mathlib

/-!
Verification of the external-request gateway of the mas-ai-assistent
repository: trace store, credential resolver, provider gateway,
Maximo (backend) gateway, generic proxy and the chat-router heuristics,
shallowly embedded from the TypeScript sources.
-/

namespace MasGateway

/-! ## JavaScript-style string helpers

`jsOrS` models the JS `a || b` idiom on possibly-undefined strings
(`none` = `undefined`; the empty string is the only falsy string). -/

def jsOrS (a b : Option String) : Option String :=
  if a.getD "" = "" then b else a

def jsOrStr (a b : String) : String :=
  if a = "" then b else a

/-- Model of JS `String.prototype.includes`: substring containment. -/
def strIncludes (s sub : String) : Bool :=
  decide (sub.toList <:+: s.toList)

/-- Model of JS `toLowerCase` (character-wise lowering). -/
def jsToLower (s : String) : String :=
  ⟨s.data.map Char.toLower⟩

/-- Model of JS `toUpperCase` (character-wise raising). -/
def jsToUpper (s : String) : String :=
  ⟨s.data.map Char.toUpper⟩

/-- Model of JS `trim`: strip whitespace from both ends. -/
def jsTrim (s : String) : String :=
  ⟨((s.data.dropWhile Char.isWhitespace).reverse.dropWhile Char.isWhitespace).reverse⟩

/-- Model of JS `startsWith`. -/
def jsStartsWith (s pre : String) : Bool :=
  decide (pre.data <+: s.data)

/-- Model of JS `slice(0, n)` on strings. -/
def jsTake (s : String) (n : Nat) : String :=
  ⟨s.data.take n⟩

/-- Model of JS `endsWith` for a single-character suffix. -/
def jsEndsWithChar (s : String) (c : Char) : Bool :=
  s.data.getLast? == some c

/-! ## Trace store (src `traceStore.ts`)

Kinds, items and the bounded newest-first store. -/

inductive TraceKind where
  | ai | maximo | rest | ui | system | models
deriving DecidableEq, Repr

/-- JSON-like payload values carried in trace requests/responses. -/
inductive JsValue where
  | null
  | bool (b : Bool)
  | num (q : Rat)
  | str (s : String)
  | arr (xs : List JsValue)
  | obj (fields : List (String × JsValue))

/-- JS truthiness on payload values: `null`, `false`, `0` and `""` are falsy. -/
def jsvFalsy : JsValue → Bool
  | .null => true
  | .bool b => !b
  | .num q => q == 0
  | .str s => s == ""
  | _ => false

structure TraceItem where
  id : String
  ts : String
  kind : TraceKind
  provider : Option String := none
  ok : Option Bool := none
  label : Option String := none
  method : Option String := none
  url : Option String := none
  status : Option Int := none
  durationMs : Option Int := none
  request : Option JsValue := none
  response : Option JsValue := none
  error : Option String := none

/-- Argument shape of `addTrace`: a `TraceItem` minus `id`/`ts`, which are
optional and generated by the store when absent. -/
structure AddTraceArg where
  id : Option String := none
  ts : Option String := none
  kind : TraceKind
  provider : Option String := none
  ok : Option Bool := none
  label : Option String := none
  method : Option String := none
  url : Option String := none
  status : Option Int := none
  durationMs : Option Int := none
  request : Option JsValue := none
  response : Option JsValue := none
  error : Option String := none

structure TraceStore where
  enabled : Bool
  maxItems : Nat
  items : List TraceItem

/-- The item actually constructed and stored by `addTrace` in the source.
`genId`/`genTs` stand for the store-generated `makeId()` / ISO timestamp.
The source enumerates the copied fields one by one and does not copy
`provider` or `ok`, so the stored item leaves them undefined. -/
def mkStoredItem (genId genTs : String) (p : AddTraceArg) : TraceItem :=
  { id := p.id.getD genId
    ts := p.ts.getD genTs
    kind := p.kind
    label := p.label
    method := p.method
    url := p.url
    status := p.status
    durationMs := p.durationMs
    request := p.request
    response := p.response
    error := p.error }

/-- `addTrace`: no-op when disabled, otherwise unshift the new item and
truncate the sequence to `maxItems` (dropping from the tail). -/
def addTrace (genId genTs : String) (p : AddTraceArg) (st : TraceStore) : TraceStore :=
  if !st.enabled then st
  else { st with items := (mkStoredItem genId genTs p :: st.items).take st.maxItems }

/-- The kind filter applied by `listTraces`. -/
def traceFilter (st : TraceStore) : Option TraceKind → List TraceItem
  | some k => st.items.filter (fun i => i.kind == k)
  | none => st.items

/-- `listTraces(kind?, limit = 200)`:
`filtered.slice(0, Math.max(1, Math.min(limit, state.maxItems)))`. -/
def listTraces (st : TraceStore) (kind : Option TraceKind) (limit : Nat) : List TraceItem :=
  (traceFilter st kind).take (max 1 (min limit st.maxItems))

/-- A fresh enabled store with capacity `m`, as initialized in the source
(`enabled: true`, empty item list). -/
def emptyStore (m : Nat) : TraceStore :=
  { enabled := true, maxItems := m, items := [] }

/-- One recorded insertion: the caller-supplied argument together with the
store-generated id and timestamp for that call. -/
def insertOne (st : TraceStore) (x : AddTraceArg × String × String) : TraceStore :=
  addTrace x.2.1 x.2.2 x.1 st

def mkOf (x : AddTraceArg × String × String) : TraceItem :=
  mkStoredItem x.2.1 x.2.2 x.1

/-- Concrete single recorded call used for the `listTraces` limit analysis. -/
def c9Arg : AddTraceArg := { kind := .rest }

/-- A store holding exactly one item, obtained by one `addTrace` call on a
fresh enabled store with the default capacity 500. -/
def c9Store : TraceStore :=
  addTrace "id-1" "2024-01-01T00:00:00.000Z" c9Arg (emptyStore 500)

/-- The model-listing call site records `provider` and `ok` alongside the
other fields, as `listModelsWithSecrets` does on a failed listing. -/
def c10Arg : AddTraceArg :=
  { kind := .models
    provider := some "openai"
    ok := some false
    durationMs := some 42
    url := some "https://api.openai.com/v1/models" }

/-! ## Settings / secrets and the credential resolver (`providers.ts`)

The settings object is a flat map; we model the keys the server reads.
`none` stands for an undefined key. -/

structure Secrets where
  openai_key : Option String := none
  openai_baseurl : Option String := none
  openai_base : Option String := none
  mistral_key : Option String := none
  mistral_baseurl : Option String := none
  mistral_base : Option String := none
  deepseek_key : Option String := none
  deepseek_baseurl : Option String := none
  deepseek_base : Option String := none
  watsonx_key : Option String := none
  watsonx_baseurl : Option String := none
  watsonx_base : Option String := none
  anthropic_key : Option String := none
  anthropic_baseurl : Option String := none
  anthropic_base : Option String := none
  gemini_key : Option String := none
  gemini_baseurl : Option String := none
  gemini_base : Option String := none
  aiProvider : Option String := none
  aiApiKey : Option String := none
  aiBaseUrl : Option String := none
  aiModel : Option String := none
  maximoUrl : Option String := none
  maximo_url : Option String := none
  maximoApiKey : Option String := none
  maximo_apikey : Option String := none

/-- The provider-specific `{key, baseUrl}` entry of the lookup map inside
`resolveProviderAuth`; an unknown provider name yields the empty entry
(`map[provider] || \x7b\x7d`). The baseUrl slot is
`secrets.<p>_baseurl || secrets.<p>_base`. -/
def specificEntry (s : Secrets) (provider : String) : Option String × Option String :=
  if provider = "openai" then (s.openai_key, jsOrS s.openai_baseurl s.openai_base)
  else if provider = "mistral" then (s.mistral_key, jsOrS s.mistral_baseurl s.mistral_base)
  else if provider = "deepseek" then (s.deepseek_key, jsOrS s.deepseek_baseurl s.deepseek_base)
  else if provider = "watsonx" then (s.watsonx_key, jsOrS s.watsonx_baseurl s.watsonx_base)
  else if provider = "anthropic" then (s.anthropic_key, jsOrS s.anthropic_baseurl s.anthropic_base)
  else if provider = "gemini" then (s.gemini_key, jsOrS s.gemini_baseurl s.gemini_base)
  else (none, none)

structure ProviderAuth where
  apiKey : Option String := none
  baseUrl : Option String := none

/-- `String(x || "").trim() || undefined`: trim, mapping an empty result to
`undefined`. -/
def trimToUndef (o : Option String) : Option String :=
  let t := jsTrim (o.getD "")
  if t = "" then none else some t

/-- `resolveProviderAuth(secrets, provider)` from `providers.ts`: trimmed
provider-specific fields win; the generic `aiApiKey`/`aiBaseUrl` are used
only when the lower-cased `aiProvider` equals the requested provider. -/
def resolveProviderAuth (s : Secrets) (provider : String) : ProviderAuth :=
  let entry := specificEntry s provider
  let chosenKey := jsTrim (entry.1.getD "")
  let chosenBase := jsTrim (entry.2.getD "")
  let genericProvider := jsToLower (s.aiProvider.getD "")
  let allowGeneric := genericProvider = provider
  let fallbackKey := if allowGeneric then trimToUndef s.aiApiKey else none
  let fallbackBase := if allowGeneric then trimToUndef s.aiBaseUrl else none
  { apiKey := if chosenKey = "" then fallbackKey else some chosenKey
    baseUrl := if chosenBase = "" then fallbackBase else some chosenBase }

/-- Stated from the spec sentence for the C1 refinement: the apiKey is the
trimmed provider-specific key when non-empty; otherwise the trimmed generic
key exactly when the lower-cased generic selected-provider field equals the
provider; otherwise nothing. -/
def specApiKeyRule (s : Secrets) (provider : String) : Option String :=
  let specific := jsTrim ((specificEntry s provider).1.getD "")
  if specific ≠ "" then some specific
  else if jsToLower (s.aiProvider.getD "") = provider then trimToUndef s.aiApiKey
  else none

/-- Stated from the spec sentence for the C1 refinement: the analogous rule
for baseUrl. -/
def specBaseUrlRule (s : Secrets) (provider : String) : Option String :=
  let specific := jsTrim ((specificEntry s provider).2.getD "")
  if specific ≠ "" then some specific
  else if jsToLower (s.aiProvider.getD "") = provider then trimToUndef s.aiBaseUrl
  else none

/-! ## Maximo base-URL normalization (`maximo.ts`, proxy route)

The source applies `replace(/\/$/, "")` followed by
`replace(/\/(oslc|api)(\/.*)?$/i, "")`. -/

/-- `replace(/\/$/, "")`: strip one trailing slash. -/
def stripTrailingSlash (s : String) : String :=
  if jsEndsWithChar s '/' then ⟨s.data.dropLast⟩ else s

/-- Tail of the pattern `(\/.*)?$` after the keyword: either the string ends
here, or a slash follows and the rest (matched by `.*`) holds no newline. -/
def oslcApiTailOk : List Char → Bool
  | [] => true
  | '/' :: t => !(t.contains '\n')
  | _ => false

/-- Does `/(oslc|api)(\/.*)?$/i` match at this position, through the end of
the string? -/
def oslcApiMatchHere : List Char → Bool
  | '/' :: rest =>
      ((rest.take 4).map Char.toLower == "oslc".data && oslcApiTailOk (rest.drop 4))
      || ((rest.take 3).map Char.toLower == "api".data && oslcApiTailOk (rest.drop 3))
  | _ => false

/-- `replace(/\/(oslc|api)(\/.*)?$/i, "")`: drop the leftmost match, which
necessarily extends to the end of the string; keep everything before it. -/
def stripOslcApiList : List Char → List Char
  | [] => []
  | c :: cs => if oslcApiMatchHere (c :: cs) then [] else c :: stripOslcApiList cs

def stripOslcApi (s : String) : String :=
  ⟨stripOslcApiList s.data⟩

/-- The two-step base normalization used by `callMaximoWith` and the proxy
route: strip one trailing slash, then the `/oslc`-or-`/api` suffix. -/
def normalizeMaximoBase (s : String) : String :=
  stripOslcApi (stripTrailingSlash s)

/-! ## JSON serialization model (`JSON.stringify`) -/

def jsonEscapeChar (c : Char) : List Char :=
  if c = '"' then ['\\', '"']
  else if c = '\\' then ['\\', '\\']
  else if c = '\n' then ['\\', 'n']
  else if c = '\r' then ['\\', 'r']
  else if c = '\t' then ['\\', 't']
  else [c]

def jsonQuote (s : String) : String :=
  ⟨'"' :: s.data.foldr (fun c acc => jsonEscapeChar c ++ acc) ['"']⟩

mutual

def JsValue.stringify : JsValue → String
  | .null => "null"
  | .bool true => "true"
  | .bool false => "false"
  | .num q => toString q
  | .str s => jsonQuote s
  | .arr xs => "[" ++ stringifyArr xs ++ "]"
  | .obj fs => "\x7b" ++ stringifyObj fs ++ "\x7d"

def stringifyArr : List JsValue → String
  | [] => ""
  | [v] => JsValue.stringify v
  | v :: vs => JsValue.stringify v ++ "," ++ stringifyArr vs

def stringifyObj : List (String × JsValue) → String
  | [] => ""
  | [(k, v)] => jsonQuote k ++ ":" ++ JsValue.stringify v
  | (k, v) :: fs => jsonQuote k ++ ":" ++ JsValue.stringify v ++ "," ++ stringifyObj fs

end

/-! ## HTTP requests, responses and header maps -/

structure HttpReq where
  method : String
  url : String
  headers : List (String × String)
  body : Option String

/-- What the network oracle reports back for one `fetch`: success flag,
status, body text, the result of `JSON.parse` on that text (`none` when it
does not parse), and the elapsed time. -/
structure NetResponse where
  ok : Bool
  status : Int
  text : String
  json : Option JsValue
  durationMs : Int

def NetOracle : Type := HttpReq → NetResponse

def getHeader (hs : List (String × String)) (k : String) : Option String :=
  (hs.find? (fun p => p.1 == k)).map Prod.snd

/-- `headers[k] = v`: overwrite an existing entry or append a new one. -/
def setHeader (hs : List (String × String)) (k v : String) : List (String × String) :=
  if hs.any (fun p => p.1 == k) then hs.map (fun p => if p.1 == k then (k, v) else p)
  else hs ++ [(k, v)]

/-- `headers[k] = headers[k] || v`. -/
def setDefaultHeader (hs : List (String × String)) (k v : String) : List (String × String) :=
  if (getHeader hs k).getD "" = "" then setHeader hs k v else hs

/-! ## Maximo gateway (`callMaximoWith`, `maximo.ts`)

Only the phase before the network call is modelled as a function of the
settings: the configuration checks, base normalization and request
construction. A `.error` result is thrown before any network call and
before any trace item is recorded. -/

def maximoRequest (secrets : Secrets) (path : String) (method : String)
    (body : Option JsValue) : Except String HttpReq :=
  let base := jsOrS secrets.maximoUrl secrets.maximo_url
  let apiKey := jsOrS secrets.maximoApiKey secrets.maximo_apikey
  if base.getD "" = "" then .error "Maximo Manage URL is not configured."
  else if apiKey.getD "" = "" then .error "Maximo API key is not configured."
  else
    let b := normalizeMaximoBase (base.getD "")
    .ok { method := method
          url := b ++ (if jsStartsWith path "/" then path else "/" ++ path)
          headers := [("Content-Type", "application/json"),
                      ("maxauth", apiKey.getD ""), ("apikey", apiKey.getD "")]
          body := body.map JsValue.stringify }

/-- Concrete settings for exercising the Maximo base normalization. -/
def c8Secrets : Secrets :=
  { maximoUrl := some "https://host/maximo/OSLC/os/", maximoApiKey := some "k" }

/-- Remove one leading slash if present: the caller-supplied path relative
to the normalized root. -/
def dropLeadingSlash (p : String) : String :=
  if jsStartsWith p "/" then ⟨p.data.drop 1⟩ else p

/-- Concrete settings for exercising the proxy guard. -/
def c7Secrets : Secrets :=
  { maximoUrl := some "https://host/maximo", maximoApiKey := some "K" }

/-! ## Generic proxy route (`POST /api/proxy`)

The decision phase of the handler: either it throws (the route answers
HTTP 400 with the message) or it forwards a fully-built request upstream. -/

inductive ProxyStep where
  | respond400 (msg : String)
  | forward (req : HttpReq)

/-- Body serialization of the proxy `fetch`: dropped for GET/HEAD and for
`null`/`undefined`; strings pass through; other values are JSON-encoded. -/
def proxyBodyEncode (body : Option JsValue) (method : String) : Option String :=
  match body with
  | none => none
  | some .null => none
  | some v =>
      if method = "GET" ∨ method = "HEAD" then none
      else match v with
           | .str s => some s
           | _ => some (JsValue.stringify v)

def apiProxyHandler (secrets : Secrets) (kind method urlIn : String)
    (headersIn : List (String × String)) (body : Option JsValue) : ProxyStep :=
  let methodU := jsToUpper method
  if kind = "maximo" then
    let base0 := secrets.maximoUrl.getD ""
    let key := secrets.maximoApiKey.getD ""
    if base0 = "" then .respond400 "Maximo Manage URL is not configured."
    else if key = "" then .respond400 "Maximo API key is not configured."
    else
      let base := normalizeMaximoBase base0
      let url := if jsStartsWith urlIn "/" then stripTrailingSlash base ++ urlIn else urlIn
      if !(jsStartsWith url base) then
        .respond400 "Maximo proxy URL must be relative or within the configured Maximo base URL."
      else
        let h1 := setDefaultHeader headersIn "Content-Type" "application/json"
        let h2 := setHeader (setHeader h1 "maxauth" key) "apikey" key
        .forward { method := methodU, url := url, headers := h2,
                   body := proxyBodyEncode body methodU }
  else if kind = "ai" then
    let key := secrets.aiApiKey.getD ""
    if key = "" then .respond400 "AI API key is not configured."
    else
      let h1 := setDefaultHeader headersIn "Authorization" ("Bearer " ++ key)
      let h2 := setDefaultHeader h1 "Content-Type" "application/json"
      .forward { method := methodU, url := urlIn, headers := h2,
                 body := proxyBodyEncode body methodU }
  else
    .forward { method := methodU, url := urlIn, headers := headersIn,
               body := proxyBodyEncode body methodU }

/-! ## Provider gateway (`chatCompletionWith`, `providers.ts`)

The chat call is modelled against a network oracle; the result carries the
outcome together with the network requests issued and the trace items
recorded, in order. -/

def JsValue.getField : JsValue → String → Option JsValue
  | .obj fs, k => (fs.find? (fun p => p.1 == k)).map Prod.snd
  | _, _ => none

def JsValue.asStr : JsValue → Option String
  | .str s => some s
  | _ => none

def JsValue.atIdx : JsValue → Nat → Option JsValue
  | .arr xs, i => xs.get? i
  | _, _ => none

/-- A single quote character, used in the unsupported-provider message. -/
def sq : String := String.singleton (Char.ofNat 39)

def OPENAI_COMPATIBLE : List String := ["openai", "mistral", "watsonx", "deepseek"]

structure ChatArgs where
  provider : String
  apiKey : Option String := none
  baseUrl : Option String := none
  model : String
  temperature : Rat
  system : Option String := none
  prompt : String

def msgObj (role content : String) : JsValue :=
  .obj [("role", .str role), ("content", .str content)]

/-- `data?.error?.message || text || "AI provider error (status)"`. -/
def upstreamErrMsg (data : Option JsValue) (text : String) (status : Int) : String :=
  jsOrStr ((((data.bind (fun d => d.getField "error")).bind
      (fun e => e.getField "message")).bind JsValue.asStr).getD "")
    (jsOrStr text ("AI provider error (" ++ toString status ++ ")"))

/-- Anthropic variant: `data?.error?.message || data?.message || text || ...`. -/
def anthropicErrMsg (data : Option JsValue) (text : String) (status : Int) : String :=
  jsOrStr ((((data.bind (fun d => d.getField "error")).bind
      (fun e => e.getField "message")).bind JsValue.asStr).getD "")
    (jsOrStr (((data.bind (fun d => d.getField "message")).bind JsValue.asStr).getD "")
      (jsOrStr text ("AI provider error (" ++ toString status ++ ")")))

/-- `data?.choices?.[0]?.message?.content ?? ""`. -/
def openAiContent (data : Option JsValue) : String :=
  (((((data.bind (fun d => d.getField "choices")).bind (fun c => c.atIdx 0)).bind
      (fun c => c.getField "message")).bind
      (fun m => m.getField "content")).bind JsValue.asStr).getD ""

/-- Concatenation of the `text` fields of all content blocks. -/
def blocksText (ps : List JsValue) : String :=
  String.join (ps.map (fun p => (((p.getField "text")).bind JsValue.asStr).getD ""))

def anthropicContent (data : Option JsValue) : String :=
  match data.bind (fun d => d.getField "content") with
  | some (.arr ps) => blocksText ps
  | _ => ""

def geminiContent (data : Option JsValue) : String :=
  match (((data.bind (fun d => d.getField "candidates")).bind (fun c => c.atIdx 0)).bind
      (fun c => c.getField "content")).bind (fun c => c.getField "parts") with
  | some (.arr ps) => blocksText ps
  | _ => ""

/-- Percent-encoding of one character, model of `encodeURIComponent`. -/
def utf8ByteVals (c : Char) : List Nat :=
  let n := c.toNat
  if n < 128 then [n]
  else if n < 2048 then [192 + n / 64, 128 + n % 64]
  else if n < 65536 then [224 + n / 4096, 128 + (n / 64) % 64, 128 + n % 64]
  else [240 + n / 262144, 128 + (n / 4096) % 64, 128 + (n / 64) % 64, 128 + n % 64]

def hexDigit (n : Nat) : Char :=
  if n < 10 then Char.ofNat (48 + n) else Char.ofNat (55 + n)

def encodeUriChar (c : Char) : List Char :=
  if c.isAlphanum || c = '-' || c = '_' || c = '.' || c = '!' || c = '~' || c = '*'
      || c = Char.ofNat 39 || c = '(' || c = ')' then [c]
  else (utf8ByteVals c).foldr (fun b acc => '%' :: hexDigit (b / 16) :: hexDigit (b % 16) :: acc) []

def encodeURIComponent (s : String) : String :=
  ⟨(s.data.map encodeUriChar).flatten⟩

structure ChatOut where
  outcome : Except String (String × Option JsValue)
  nets : List HttpReq
  traces : List AddTraceArg

/-- `chatCompletionWith(args)`: fail fast on a missing key, then dispatch on
the provider wire protocol; each protocol branch issues one network call and
records one trace item, then raises on a non-2xx response. -/
def chatCompletionWith (net : NetOracle) (a : ChatArgs) : ChatOut :=
  if a.apiKey.getD "" = "" then
    { outcome := .error "AI API key is not configured.", nets := [], traces := [] }
  else if OPENAI_COMPATIBLE.contains a.provider then
    let url := stripTrailingSlash (jsOrStr (a.baseUrl.getD "") "https://api.openai.com/v1")
        ++ "/chat/completions"
    let body : JsValue := .obj
      [("model", .str a.model),
       ("messages", .arr
         ((if a.system.getD "" = "" then [] else [msgObj "system" (a.system.getD "")])
           ++ [msgObj "user" a.prompt])),
       ("temperature", .num a.temperature)]
    let req : HttpReq :=
      { method := "POST", url := url,
        headers := [("Authorization", "Bearer " ++ jsTrim (a.apiKey.getD "")),
                    ("Content-Type", "application/json")],
        body := some (JsValue.stringify body) }
    let resp := net req
    let data := resp.json
    let tr : AddTraceArg :=
      { kind := .ai, label := some "Chat completion", method := some "POST",
        url := some url, status := some resp.status, durationMs := some resp.durationMs,
        request := some body, response := some (data.getD (.str resp.text)) }
    { outcome :=
        if !resp.ok then .error (upstreamErrMsg data resp.text resp.status)
        else .ok (openAiContent data, data)
      nets := [req], traces := [tr] }
  else if a.provider = "anthropic" then
    let url := stripTrailingSlash (jsOrStr (a.baseUrl.getD "") "https://api.anthropic.com")
        ++ "/v1/messages"
    let body : JsValue := .obj
      ([("model", .str a.model), ("max_tokens", .num 1024),
        ("temperature", .num a.temperature),
        ("messages", .arr [msgObj "user" a.prompt])]
        ++ (if a.system.getD "" = "" then [] else [("system", JsValue.str (a.system.getD ""))]))
    let req : HttpReq :=
      { method := "POST", url := url,
        headers := [("x-api-key", a.apiKey.getD ""),
                    ("anthropic-version", "2023-06-01"),
                    ("Content-Type", "application/json")],
        body := some (JsValue.stringify body) }
    let resp := net req
    let data := resp.json
    let tr : AddTraceArg :=
      { kind := .ai, label := some "Anthropic messages", method := some "POST",
        url := some url, status := some resp.status, durationMs := some resp.durationMs,
        request := some body, response := some (data.getD (.str resp.text)) }
    { outcome :=
        if !resp.ok then .error (anthropicErrMsg data resp.text resp.status)
        else .ok (anthropicContent data, data)
      nets := [req], traces := [tr] }
  else if a.provider = "gemini" then
    let base := stripTrailingSlash
      (jsOrStr (a.baseUrl.getD "") "https://generativelanguage.googleapis.com/v1beta")
    let url := base ++ "/models/" ++ encodeURIComponent a.model ++ ":generateContent?key="
        ++ encodeURIComponent (a.apiKey.getD "")
    let body : JsValue := .obj
      [("contents", .arr [.obj
          [("role", .str "user"),
           ("parts", .arr [.obj [("text", .str
             (if a.system.getD "" = "" then a.prompt
              else a.system.getD "" ++ "\n\n" ++ a.prompt))]])]]),
       ("generationConfig", .obj [("temperature", .num a.temperature)])]
    let req : HttpReq :=
      { method := "POST", url := url,
        headers := [("Content-Type", "application/json")],
        body := some (JsValue.stringify body) }
    let resp := net req
    let data := resp.json
    let tr : AddTraceArg :=
      { kind := .ai, label := some "Gemini generateContent", method := some "POST",
        url := some url, status := some resp.status, durationMs := some resp.durationMs,
        request := some body, response := some (data.getD (.str resp.text)) }
    { outcome :=
        if !resp.ok then .error (upstreamErrMsg data resp.text resp.status)
        else .ok (geminiContent data, data)
      nets := [req], traces := [tr] }
  else
    { outcome := .error ("Provider " ++ sq ++ a.provider ++ sq
        ++ " is not supported by this build."), nets := [], traces := [] }

/-- HTTP response of a route handler: status plus the JSON payload. -/
structure ApiResult where
  status : Nat
  body : JsValue

/-- The AI-mode branch of `POST /api/chat`: resolve auth for the requested
provider from the merged settings, call `chatCompletionWith`, answer 200 on
success and 400 with the error message on failure. -/
def apiChatAiMode (net : NetOracle) (mergedSecrets : Secrets) (provider modelIn : String)
    (temp : Option Rat) (system : Option String) (text : String) :
    ApiResult × List HttpReq × List AddTraceArg :=
  let auth := resolveProviderAuth mergedSecrets provider
  let out := chatCompletionWith net
    { provider := provider
      apiKey := auth.apiKey
      baseUrl := auth.baseUrl
      model := jsOrStr modelIn (jsOrStr (mergedSecrets.aiModel.getD "") "gpt-4o-mini")
      temperature := temp.getD ((2 : Rat) / 10)
      system := system
      prompt := text }
  match out.outcome with
  | .ok (content, raw) =>
      ({ status := 200, body := .obj [("reply", .str content), ("raw", raw.getD .null)] },
        out.nets, out.traces)
  | .error m =>
      ({ status := 400, body := .obj [("error", .str m)] }, out.nets, out.traces)

/-! ## Maximo-mode routing and query heuristics (`POST /api/chat`) -/

/-- The summarize-last-results intent test on the lower-cased input. -/
def summarizeIntent (lower : String) : Bool :=
  strIncludes lower "summarize the last maximo results"
  || (strIncludes lower "summarize" && strIncludes lower "last" && strIncludes lower "maximo")

def woCorrectiveWhere : String := "woclass=\"WORKORDER\" and worktype=\"CORRECTIVE\""

def woOpenWhere : String :=
  "woclass=\"WORKORDER\" and status not in [\"CLOSE\",\"CAN\",\"CANCEL\",\"COMP\"]"

def woSelect : String :=
  "wonum,description,status,worktype,siteid,orgid,location,assetnum,reportdate"

def srSelect : String :=
  "ticketid,description,status,reportedby,reportdate,siteid,orgid,location,assetnum"

/-- `defaultSelectByOS[os.toLowerCase()]`. -/
def defaultSelectByOS (os : String) : Option String :=
  if os = "mxapiasset" then
    some "assetnum,description,location,parent,assethealth,siteid,assettype"
  else if os = "mxapiwo" then some woSelect
  else if os = "mxapisr" then some srSelect
  else if os = "mxapiinv" then some "itemnum,description,location,siteid,curbal,issueunit"
  else if os = "mxapilocation" then some "location,description,parent,siteid,type"
  else none

def summarySystemDefault : String :=
  "You are an assistant helping summarize IBM Maximo REST query results. Provide a clear, business-readable summary with key counts, notable statuses, and anomalies."

def summaryPromptHeader : String :=
  "Summarize the following Maximo results (JSON). Include: total items, important fields, patterns, outliers, and a short recommended next step.\n\n"

/-- `if (payload.length > 120_000) payload = payload.slice(0, 120_000) +
"\n...TRUNCATED"`. -/
def truncatePayload (s : String) : String :=
  if s.length > 120000 then jsTake s 120000 ++ "\n...TRUNCATED" else s

/-- The `chatCompletionWith` argument built by the summarize branch. -/
def summarizeChatArgs (secrets : Secrets) (provider modelIn : String)
    (temp : Option Rat) (system : Option String) (payload : String) : ChatArgs :=
  let auth := resolveProviderAuth secrets provider
  { provider := provider
    apiKey := auth.apiKey
    baseUrl := auth.baseUrl
    model := jsOrStr modelIn (jsOrStr (secrets.aiModel.getD "") "gpt-4o-mini")
    temperature := temp.getD ((2 : Rat) / 10)
    system := some (jsOrStr (system.getD "") summarySystemDefault)
    prompt := summaryPromptHeader ++ payload }

/-- The action the maximo-mode branch of `POST /api/chat` decides on:
a verbatim backend call for literal paths, the summarize flow (error when
no usable prior result, otherwise an AI call and no backend query), or a
heuristic backend query. -/
inductive MaximoRoute where
  | direct (path : String)
  | summarizeErr
  | summarize (payload : String) (args : ChatArgs)
  | query (os whereClause selectClause : String) (pageSize : Nat)

/-- The maximo-mode branch of `POST /api/chat`: `uiOS` is the trimmed
`body.maximoOS`, `text` the raw input; the handler trims and lower-cases it,
short-circuits literal paths, computes the keyword heuristics, handles the
summarize intent against the most recent `kind = "maximo"` trace entry, and
otherwise emits the structured query. -/
def routeMaximo (secrets : Secrets) (store : TraceStore) (provider modelIn : String)
    (temp : Option Rat) (system : Option String) (uiOS text : String) : MaximoRoute :=
  let q := jsTrim text
  if jsStartsWith q "/" then .direct q
  else
    let lower := jsToLower q
    let isWO := strIncludes lower "work order" || strIncludes lower "workorder"
        || strIncludes lower "wo"
    let isSR := strIncludes lower "service request" || strIncludes lower "servicerequest"
        || strIncludes lower "sr"
    let os :=
      if uiOS = "" then
        if strIncludes lower "location" then "mxapilocation"
        else if strIncludes lower "asset" then "mxapiasset"
        else if isSR then "mxapisr"
        else if strIncludes lower "inventory" then "mxapiinv"
        else "mxapiwo"
      else uiOS
    let wsp : String × String × Nat :=
      if strIncludes lower "corrective" && isWO then (woCorrectiveWhere, woSelect, 100)
      else if strIncludes lower "open" && isWO then (woOpenWhere, woSelect, 100)
      else if isSR && strIncludes lower "all" then ("", srSelect, 100)
      else ("", "", 50)
    if summarizeIntent lower then
      match (listTraces store (some .maximo) 1).head? with
      | none => .summarizeErr
      | some last =>
        match last.response with
        | none => .summarizeErr
        | some v =>
          if jsvFalsy v then .summarizeErr
          else
            let payload := truncatePayload (JsValue.stringify v)
            .summarize payload (summarizeChatArgs secrets provider modelIn temp system payload)
    else
      let sel := if wsp.2.1 = "" then (defaultSelectByOS (jsToLower os)).getD "" else wsp.2.1
      .query os wsp.1 sel wsp.2.2

/-! ## Provider model-id filtering (`filterModelIds`, `providers.ts`) -/

/-- `Array.from(new Set(...))`: keep first occurrences, preserving order. -/
def dedupGo (seen : List String) : List String → List String
  | [] => []
  | x :: xs => if seen.contains x then dedupGo seen xs else x :: dedupGo (x :: seen) xs

def jsSetDedup (l : List String) : List String := dedupGo [] l

/-- `/^(gpt-|o\d|chatgpt)/i.test(id) && !/(davinci|curie|babbage|ada|text-|code-|instruct|deprecated)/i.test(id)`. -/
def modernOpenAiId (id : String) : Bool :=
  let l := jsToLower id
  (jsStartsWith l "gpt-"
      || (match l.data with | 'o' :: c :: _ => c.isDigit | _ => false)
      || jsStartsWith l "chatgpt")
  && !(strIncludes l "davinci" || strIncludes l "curie" || strIncludes l "babbage"
      || strIncludes l "ada" || strIncludes l "text-" || strIncludes l "code-"
      || strIncludes l "instruct" || strIncludes l "deprecated")

/-- Numeric-aware sort key, model of `localeCompare(..., \x7bnumeric: true\x7d)`:
a digit run becomes one numeric token ordered by value (and sitting at the
digits position relative to other characters); any other character is
ordered by its code point. Each token is two numbers, so the flattened key
list compares token-wise. The first argument accumulates the value of the
digit run currently being scanned. -/
def natKeyGo : Option Nat → List Char → List Nat
  | none, [] => []
  | some acc, [] => [48, acc + 1]
  | none, c :: cs =>
      if c.isDigit then natKeyGo (some (c.toNat - 48)) cs
      else c.toNat :: 0 :: natKeyGo none cs
  | some acc, c :: cs =>
      if c.isDigit then natKeyGo (some (acc * 10 + (c.toNat - 48))) cs
      else 48 :: (acc + 1) :: c.toNat :: 0 :: natKeyGo none cs

def natKey (s : String) : List Nat := natKeyGo none s.data

/-- The comparator order used by the final sort. -/
def natLe (a b : String) : Prop := natKey a ≤ natKey b

instance : DecidableRel natLe := fun a b => inferInstanceAs (Decidable (natKey a ≤ natKey b))

instance : IsTotal String natLe := ⟨fun a b => le_total (natKey a) (natKey b)⟩

instance : IsTrans String natLe := ⟨fun _ _ _ h1 h2 => le_trans h1 h2⟩

/-- Stable sort with the numeric-aware comparator (`Array.prototype.sort`
is stable). -/
def sortModelIds (l : List String) : List String := List.insertionSort natLe l

/-- `filterModelIds(provider, ids)` from `providers.ts`. -/
def filterModelIds (provider : String) (ids : List String) : List String :=
  let uniq := jsSetDedup (ids.filter (fun s => s ≠ ""))
  if provider ≠ "openai" then uniq
  else
    let preferred := uniq.filter modernOpenAiId
    let out := if preferred.isEmpty then uniq else preferred
    sortModelIds out

/-- A network oracle that answers every request with an empty 200 — used to
exercise paths that must not reach the network at all. -/
def dummyNet : NetOracle :=
  fun _ => { ok := true, status := 200, text := "", json := none, durationMs := 0 }

/-- A store whose most recent maximo-kind entry carries a response payload,
for exercising the summarize flow. -/
def c4Store : TraceStore :=
  { enabled := true, maxItems := 500,
    items := [{ id := "m1", ts := "t1", kind := .maximo,
                response := some (.str "maximo rows") }] }

end MasGateway

namespace MasGateway

/-! ## List lemmas for the trace store -/

theorem take_append_take {α : Type} :
    ∀ (A : List α) (k m : Nat) (l : List α), k ≤ m →
      List.take k (A ++ List.take m l) = List.take k (A ++ l) := by
  intro A
  induction A with
  | nil =>
    intro k m l hkm
    simp [List.take_take, Nat.min_eq_left hkm]
  | cons a A ih =>
    intro k m l hkm
    cases k with
    | zero => simp
    | succ j =>
      simp only [List.cons_append, List.take_succ_cons]
      exact congrArg (a :: ·) (ih j m l (Nat.le_of_succ_le hkm))

theorem foldl_insert_items (m : Nat) :
    ∀ (xs : List (AddTraceArg × String × String)) (st : TraceStore),
      st.enabled = true → st.maxItems = m → st.items.length ≤ m →
      (xs.foldl insertOne st).items = List.take m ((xs.map mkOf).reverse ++ st.items) := by
  intro xs
  induction xs with
  | nil =>
    intro st _ hm hlen
    simp [List.take_of_length_le hlen]
  | cons x xs ih =>
    intro st hen hm hlen
    have hstep : insertOne st x =
        { st with items := (mkOf x :: st.items).take st.maxItems } := by
      simp [insertOne, addTrace, hen, mkOf]
    have h1 : ((mkOf x :: st.items).take st.maxItems).length ≤ m := by
      rw [List.length_take, hm]
      exact Nat.min_le_left _ _
    rw [List.foldl_cons, hstep,
      ih { st with items := (mkOf x :: st.items).take st.maxItems } hen hm h1]
    rw [List.map_cons, List.reverse_cons, List.append_assoc, List.singleton_append, hm]
    exact take_append_take (xs.map mkOf).reverse m m (mkOf x :: st.items) (Nat.le_refl m)

end MasGateway

namespace MasGateway

/-- C3: for every sequence of N `addTrace` calls on an enabled store with
`maxItems = M`, the store afterwards holds exactly `min N M` items,
newest-first (each new item is placed at the front), and when `N > M` the
evicted items are exactly the `N - M` oldest ones, dropped from the tail:
the retained items, oldest-first, are precisely the inserts with the first
`N - M` dropped. -/
theorem addTrace_bounded_newest_first (M : Nat) (inserts : List (AddTraceArg × String × String)) :
    (inserts.foldl insertOne (emptyStore M)).items = ((inserts.map mkOf).reverse).take M
    ∧ (inserts.foldl insertOne (emptyStore M)).items.length = min inserts.length M
    ∧ ((inserts.foldl insertOne (emptyStore M)).items).reverse
        = (inserts.map mkOf).drop (inserts.length - M) := by
  have h := foldl_insert_items M inserts (emptyStore M) rfl rfl (by simp [emptyStore])
  have hnil : (emptyStore M).items = [] := rfl
  rw [hnil, List.append_nil] at h
  refine ⟨h, ?_, ?_⟩
  · rw [h, List.length_take, List.length_reverse, List.length_map, Nat.min_comm]
  · rw [h]
    have hr := List.rtake_eq_reverse_take_reverse (inserts.map mkOf) M
    rw [List.rtake] at hr
    rw [← hr, List.length_map]

/-- C9 counterexample: with one stored item and limit 0, `listTraces`
returns one entry, not zero — the source clamps the limit from below with
`Math.max(1, ...)`, so `min limit maxItems = 0` does not bound the result. -/
theorem listTraces_limit_zero_cex :
    (listTraces c9Store none 0).length = 1
    ∧ ¬ ((listTraces c9Store none 0).length ≤ min 0 c9Store.maxItems) := by
  exact ⟨rfl, by decide⟩

/-- C9 amended: `listTraces` returns at most `max 1 (min limit maxItems)`
entries (the limit is clamped from below to 1), taken newest-first — a
prefix of the stored items restricted to the requested kind. -/
theorem listTraces_clamped (st : TraceStore) (kindF : Option TraceKind) (L : Nat) :
    (listTraces st kindF L).length ≤ max 1 (min L st.maxItems)
    ∧ (∃ t, listTraces st kindF L ++ t = traceFilter st kindF)
    ∧ ∀ k, kindF = some k → ∀ i ∈ listTraces st kindF L, i.kind = k := by
  refine ⟨?_, ⟨(traceFilter st kindF).drop (max 1 (min L st.maxItems)), ?_⟩, ?_⟩
  · rw [listTraces, List.length_take]
    exact Nat.min_le_left _ _
  · exact List.take_append_drop _ _
  · intro k hk i hi
    subst hk
    have h1 : i ∈ traceFilter st (some k) := List.mem_of_mem_take hi
    have h2 := (List.mem_filter.mp h1).2
    exact eq_of_beq h2

/-- C9 amended, instantiated: the single-item store from the counterexample
satisfies the clamped bound at limit 0. -/
theorem listTraces_clamped_witness :
    (listTraces c9Store none 0).length ≤ max 1 (min 0 c9Store.maxItems) :=
  (listTraces_clamped c9Store none 0).1

/-- C10: the store drops the caller-supplied `provider` and `ok` fields.
`addTrace` copies `kind`, `label`, `method`, `url`, `status`, `durationMs`,
`request`, `response` and `error` from its argument, but the constructed
item never receives `provider` or `ok`, so a model-listing trace recorded
with `provider = "openai"` and `ok = false` is stored with both fields
undefined while e.g. `durationMs` and `url` are preserved. -/
theorem addTrace_drops_provider_ok :
    (addTrace "id-2" "ts-2" c10Arg (emptyStore 500)).items
        = [mkStoredItem "id-2" "ts-2" c10Arg]
    ∧ c10Arg.provider = some "openai"
    ∧ c10Arg.ok = some false
    ∧ (mkStoredItem "id-2" "ts-2" c10Arg).provider = none
    ∧ (mkStoredItem "id-2" "ts-2" c10Arg).ok = none
    ∧ (mkStoredItem "id-2" "ts-2" c10Arg).durationMs = some 42
    ∧ (mkStoredItem "id-2" "ts-2" c10Arg).url = some "https://api.openai.com/v1/models" :=
  ⟨rfl, rfl, rfl, rfl, rfl, rfl, rfl⟩

end MasGateway

namespace MasGateway

/-- C1: for every settings object and provider name, `resolveProviderAuth`
returns as apiKey the trimmed provider-specific key when non-empty, and
otherwise the trimmed generic `aiApiKey` exactly when the lower-cased
generic `aiProvider` field equals the provider — otherwise no apiKey; the
analogous rule holds for baseUrl. In particular a generic credential never
leaks to a provider that `aiProvider` does not designate. -/
theorem resolveProviderAuth_precedence_no_leak (s : Secrets) (provider : String) :
    (resolveProviderAuth s provider).apiKey = specApiKeyRule s provider
    ∧ (resolveProviderAuth s provider).baseUrl = specBaseUrlRule s provider
    ∧ (jsTrim ((specificEntry s provider).1.getD "") = "" →
        jsToLower (s.aiProvider.getD "") ≠ provider →
        (resolveProviderAuth s provider).apiKey = none)
    ∧ (jsTrim ((specificEntry s provider).2.getD "") = "" →
        jsToLower (s.aiProvider.getD "") ≠ provider →
        (resolveProviderAuth s provider).baseUrl = none) := by
  refine ⟨?_, ?_, ?_, ?_⟩
  · by_cases h : jsTrim ((specificEntry s provider).1.getD "") = "" <;>
      by_cases h2 : jsToLower (s.aiProvider.getD "") = provider <;>
      simp [resolveProviderAuth, specApiKeyRule, h, h2]
  · by_cases h : jsTrim ((specificEntry s provider).2.getD "") = "" <;>
      by_cases h2 : jsToLower (s.aiProvider.getD "") = provider <;>
      simp [resolveProviderAuth, specBaseUrlRule, h, h2]
  · intro h h2
    simp [resolveProviderAuth, h, h2]
  · intro h h2
    simp [resolveProviderAuth, h, h2]

/-- C1 instantiated at the spec test: with only a generic `apiKey = "Y"` and
`provider = "other"`, resolving the openai provider yields no apiKey. -/
theorem resolveProviderAuth_no_leak_witness :
    (resolveProviderAuth { aiProvider := some "other", aiApiKey := some "Y" } "openai").apiKey
      = none :=
  (resolveProviderAuth_precedence_no_leak
      { aiProvider := some "other", aiApiKey := some "Y" } "openai").2.2.1 rfl (by decide)

end MasGateway

namespace MasGateway

/-! ## String and header lemmas shared by the gateway theorems -/

theorem string_ext {s t : String} (h : s.data = t.data) : s = t := by
  cases s; cases t; exact congrArg String.mk h

theorem string_append_data (a b : String) : (a ++ b).data = a.data ++ b.data := rfl

theorem jsStartsWith_slash {p : String} (h : jsStartsWith p "/" = true) :
    p = "/" ++ (⟨p.data.drop 1⟩ : String) := by
  have hpre : ("/" : String).data <+: p.data := of_decide_eq_true h
  obtain ⟨t, ht⟩ := hpre
  apply string_ext
  rw [string_append_data, ← ht]
  rfl

theorem head?_take_pos {α : Type} (l : List α) (n : Nat) (h : 1 ≤ n) :
    (l.take n).head? = l.head? := by
  cases n with
  | zero => omega
  | succ m => cases l <;> simp

theorem mem_setHeader_self (hs : List (String × String)) (k v : String) :
    (k, v) ∈ setHeader hs k v := by
  unfold setHeader
  by_cases h : hs.any (fun p => p.1 == k)
  · rw [if_pos h]
    obtain ⟨p, hp, hpk⟩ := List.any_eq_true.mp h
    exact List.mem_map.mpr ⟨p, hp, by simp [hpk]⟩
  · rw [if_neg h]
    exact List.mem_append.mpr (Or.inr (List.mem_singleton.mpr rfl))

theorem mem_setHeader_of_ne (hs : List (String × String)) (k v k' v' : String)
    (hne : k' ≠ k) (hm : (k', v') ∈ hs) : (k', v') ∈ setHeader hs k v := by
  unfold setHeader
  by_cases h : hs.any (fun p => p.1 == k)
  · rw [if_pos h]
    refine List.mem_map.mpr ⟨(k', v'), hm, ?_⟩
    simp [hne]
  · rw [if_neg h]
    exact List.mem_append.mpr (Or.inl hm)

/-- C8: for every configured backend base URL, `callMaximoWith` first strips
a trailing slash, then strips a trailing `/oslc` or `/api` suffix with any
further sub-path (case-insensitively), and sends to that root followed by
the caller-supplied path with exactly one separating slash; a missing base
URL or API key raises the corresponding configuration error instead, before
any network call or trace write. -/
theorem maximoRequest_normalizes (secrets : Secrets) (path method : String)
    (body : Option JsValue) :
    ((jsOrS secrets.maximoUrl secrets.maximo_url).getD "" = "" →
      maximoRequest secrets path method body
        = .error "Maximo Manage URL is not configured.")
    ∧ ((jsOrS secrets.maximoUrl secrets.maximo_url).getD "" ≠ "" →
      (jsOrS secrets.maximoApiKey secrets.maximo_apikey).getD "" = "" →
      maximoRequest secrets path method body
        = .error "Maximo API key is not configured.")
    ∧ (∀ req, maximoRequest secrets path method body = .ok req →
      req.url = stripOslcApi (stripTrailingSlash
            ((jsOrS secrets.maximoUrl secrets.maximo_url).getD ""))
          ++ "/" ++ dropLeadingSlash path) := by
  refine ⟨?_, ?_, ?_⟩
  · intro h
    simp [maximoRequest, h]
  · intro h1 h2
    simp [maximoRequest, h1, h2]
  · intro req h
    by_cases h1 : (jsOrS secrets.maximoUrl secrets.maximo_url).getD "" = ""
    · simp [maximoRequest, h1] at h
    by_cases h2 : (jsOrS secrets.maximoApiKey secrets.maximo_apikey).getD "" = ""
    · simp [maximoRequest, h1, h2] at h
    simp only [maximoRequest, if_neg h1, if_neg h2] at h
    obtain rfl : req = _ := (Except.ok.injEq _ _).mp h.symm
    show normalizeMaximoBase _ ++ _ = _
    rw [normalizeMaximoBase]
    by_cases hsw : jsStartsWith path "/" = true
    · rw [if_pos hsw, dropLeadingSlash, if_pos hsw]
      conv_lhs => rw [jsStartsWith_slash hsw]
      rw [← String.append_assoc]
    · rw [if_neg hsw, dropLeadingSlash, if_neg hsw]
      rw [← String.append_assoc]

/-- C8 instantiated: a pasted OSLC URL with mixed case and a trailing slash
is normalized back to the Manage root, and the path is joined with a single
slash. -/
theorem maximoRequest_normalizes_witness :
    ∃ req, maximoRequest c8Secrets "api/os/mxapiwo" "GET" none = .ok req
      ∧ req.url = stripOslcApi (stripTrailingSlash "https://host/maximo/OSLC/os/")
          ++ "/" ++ dropLeadingSlash "api/os/mxapiwo"
      ∧ req.url = "https://host/maximo/api/os/mxapiwo" := by
  refine ⟨_, rfl, ?_, ?_⟩
  · exact (maximoRequest_normalizes c8Secrets "api/os/mxapiwo" "GET" none).2.2 _ rfl
  · decide

end MasGateway

namespace MasGateway

/-- C7: for every proxy request of the backend (`maximo`) kind, the forwarded
request carries the configured backend API key in both legacy headers, a URL
beginning with a slash is resolved against the normalized backend base, and a
request whose resolved URL does not start with that base is answered with an
error (HTTP 400) and never forwarded upstream. -/
theorem apiProxyMaximo_guard (secrets : Secrets) (method urlIn : String)
    (headersIn : List (String × String)) (body : Option JsValue) :
    (∀ req, apiProxyHandler secrets "maximo" method urlIn headersIn body = .forward req →
        ("maxauth", secrets.maximoApiKey.getD "") ∈ req.headers
        ∧ ("apikey", secrets.maximoApiKey.getD "") ∈ req.headers
        ∧ jsStartsWith req.url (normalizeMaximoBase (secrets.maximoUrl.getD "")) = true
        ∧ (jsStartsWith urlIn "/" = true →
            req.url = stripTrailingSlash (normalizeMaximoBase (secrets.maximoUrl.getD ""))
                ++ urlIn))
    ∧ (jsStartsWith
          (if jsStartsWith urlIn "/" then
            stripTrailingSlash (normalizeMaximoBase (secrets.maximoUrl.getD "")) ++ urlIn
          else urlIn)
          (normalizeMaximoBase (secrets.maximoUrl.getD "")) = false →
        ∃ msg, apiProxyHandler secrets "maximo" method urlIn headersIn body
            = .respond400 msg) := by
  constructor
  · intro req h
    by_cases h1 : secrets.maximoUrl.getD "" = ""
    · simp [apiProxyHandler, h1] at h
    by_cases h2 : secrets.maximoApiKey.getD "" = ""
    · simp [apiProxyHandler, h1, h2] at h
    by_cases h3 : jsStartsWith
        (if jsStartsWith urlIn "/" then
          stripTrailingSlash (normalizeMaximoBase (secrets.maximoUrl.getD "")) ++ urlIn
        else urlIn)
        (normalizeMaximoBase (secrets.maximoUrl.getD "")) = true
    · simp only [apiProxyHandler, if_pos rfl, if_neg h1, if_neg h2, h3,
        Bool.not_true, Bool.false_eq_true, if_false] at h
      obtain rfl : req = _ := ((ProxyStep.forward.injEq _ _).mp h.symm)
      refine ⟨?_, ?_, ?_, ?_⟩
      · exact mem_setHeader_of_ne _ "apikey" _ "maxauth" _ (by decide)
          (mem_setHeader_self _ "maxauth" _)
      · exact mem_setHeader_self _ "apikey" _
      · exact h3
      · intro hsl
        show (if jsStartsWith urlIn "/" then _ else urlIn) = _
        rw [if_pos hsl]
    · simp only [apiProxyHandler, if_pos rfl, if_neg h1, if_neg h2,
        Bool.not_eq_true] at h
      rw [eq_false_of_ne_true h3] at h
      simp at h
  · intro h3
    by_cases h1 : secrets.maximoUrl.getD "" = ""
    · exact ⟨"Maximo Manage URL is not configured.", by simp [apiProxyHandler, h1]⟩
    by_cases h2 : secrets.maximoApiKey.getD "" = ""
    · exact ⟨"Maximo API key is not configured.", by simp [apiProxyHandler, h1, h2]⟩
    refine ⟨"Maximo proxy URL must be relative or within the configured Maximo base URL.", ?_⟩
    simp only [apiProxyHandler, if_pos rfl, if_neg h1, if_neg h2, h3]
    simp

/-- C7 instantiated: a relative URL is resolved against the configured base
and forwarded with both backend key headers. -/
theorem apiProxyMaximo_guard_witness :
    ∃ req, apiProxyHandler c7Secrets "maximo" "get" "/oslc/os/mxapiasset" [] none
        = .forward req
      ∧ ("maxauth", "K") ∈ req.headers
      ∧ ("apikey", "K") ∈ req.headers
      ∧ req.url = "https://host/maximo/oslc/os/mxapiasset" := by
  refine ⟨_, rfl, ?_, ?_, by decide⟩
  · exact ((apiProxyMaximo_guard c7Secrets "get" "/oslc/os/mxapiasset" [] none).1 _ rfl).1
  · exact ((apiProxyMaximo_guard c7Secrets "get" "/oslc/os/mxapiasset" [] none).1 _ rfl).2.1

end MasGateway

namespace MasGateway

/-- C2: when the resolved API key is absent, `chatCompletionWith` raises the
configuration error with no network call and no trace item; consequently the
AI-mode branch of `POST /api/chat` answers HTTP 400 with a message mentioning
the missing API key, and no trace item (in particular none with a status) is
recorded for the attempt. -/
theorem missing_key_fails_fast (net : NetOracle) (a : ChatArgs) (mergedSecrets : Secrets)
    (provider modelIn : String) (temp : Option Rat) (system : Option String)
    (text : String) :
    (a.apiKey.getD "" = "" →
      chatCompletionWith net a
        = { outcome := .error "AI API key is not configured.", nets := [], traces := [] })
    ∧ ((resolveProviderAuth mergedSecrets provider).apiKey = none →
      (apiChatAiMode net mergedSecrets provider modelIn temp system text).1.status = 400
      ∧ (apiChatAiMode net mergedSecrets provider modelIn temp system text).1.body
          = .obj [("error", .str "AI API key is not configured.")]
      ∧ strIncludes "AI API key is not configured." "API key" = true
      ∧ (apiChatAiMode net mergedSecrets provider modelIn temp system text).2.1 = []
      ∧ (apiChatAiMode net mergedSecrets provider modelIn temp system text).2.2 = []) := by
  constructor
  · intro h
    simp [chatCompletionWith, h]
  · intro h
    refine ⟨?_, ?_, by decide, ?_, ?_⟩ <;>
      simp [apiChatAiMode, chatCompletionWith, h]

/-- C2 instantiated: empty settings, provider openai — the handler answers
400 without touching the network or the trace store. -/
theorem missing_key_fails_fast_witness :
    (apiChatAiMode dummyNet {} "openai" "" none none "hello").1.status = 400
    ∧ (apiChatAiMode dummyNet {} "openai" "" none none "hello").2.1 = []
    ∧ (apiChatAiMode dummyNet {} "openai" "" none none "hello").2.2 = [] := by
  have h := (missing_key_fails_fast dummyNet
    { provider := "openai", model := "", temperature := 0, prompt := "" }
    {} "openai" "" none none "hello").2 rfl
  exact ⟨h.1, h.2.2.2.1, h.2.2.2.2⟩

end MasGateway

namespace MasGateway

/-- C4: in maximo mode, a non-path input expressing the summarize intent
issues no new backend query: when the most recent maximo-kind trace entry
carries a (truthy) response, the route is the summarize action whose prompt
embeds the JSON serialization truncated to 120000 characters with a marker
appended when cut; when no maximo entry with a usable response exists, the
route is the user-facing 400 error. -/
theorem summarize_routes_last_trace (secrets : Secrets) (store : TraceStore)
    (provider modelIn : String) (temp : Option Rat) (system : Option String)
    (uiOS text : String)
    (hq : jsStartsWith (jsTrim text) "/" = false)
    (hs : summarizeIntent (jsToLower (jsTrim text)) = true) :
    (∀ v, ((traceFilter store (some .maximo)).head?.bind TraceItem.response) = some v →
        jsvFalsy v = false →
        routeMaximo secrets store provider modelIn temp system uiOS text
          = .summarize (truncatePayload (JsValue.stringify v))
              (summarizeChatArgs secrets provider modelIn temp system
                (truncatePayload (JsValue.stringify v))))
    ∧ ((∀ i ∈ store.items, i.kind = .maximo → ∀ v, i.response = some v → jsvFalsy v = true) →
        routeMaximo secrets store provider modelIn temp system uiOS text = .summarizeErr)
    ∧ (∀ s : String, ¬ 120000 < s.length → truncatePayload s = s)
    ∧ (∀ s : String, 120000 < s.length →
        truncatePayload s = jsTake s 120000 ++ "\n...TRUNCATED"
          ∧ (truncatePayload s).length = 120013) := by
  have hlist : (listTraces store (some .maximo) 1).head?
      = (traceFilter store (some .maximo)).head? := by
    rw [listTraces]
    exact head?_take_pos _ _ (le_max_left 1 _)
  refine ⟨?_, ?_, ?_, ?_⟩
  · intro v hv hfv
    obtain ⟨last, hlast, hresp⟩ :
        ∃ last, (traceFilter store (some .maximo)).head? = some last
          ∧ last.response = some v := by
      cases hh : (traceFilter store (some .maximo)).head? with
      | none => rw [hh] at hv; simp at hv
      | some last => exact ⟨last, rfl, by rw [hh] at hv; simpa using hv⟩
    rw [routeMaximo]
    simp only [hq, Bool.false_eq_true, if_false, hs, if_true, hlist, hlast, hresp, hfv]
  · intro hall
    rw [routeMaximo]
    simp only [hq, Bool.false_eq_true, if_false, hs, if_true, hlist]
    cases hh : (traceFilter store (some .maximo)).head? with
    | none => simp
    | some last =>
      have hmem : last ∈ traceFilter store (some .maximo) := by
        cases hfil : traceFilter store (some .maximo) with
        | nil => rw [hfil] at hh; simp at hh
        | cons a t =>
          rw [hfil] at hh
          simp only [List.head?_cons, Option.some.injEq] at hh
          rw [← hh]
          exact List.mem_cons_self a t
      have hkind : last.kind = .maximo := by
        have := (List.mem_filter.mp hmem).2
        exact eq_of_beq this
      have hitems : last ∈ store.items := (List.mem_filter.mp hmem).1
      cases hresp : last.response with
      | none => simp [hresp]
      | some v =>
        have := hall last hitems hkind v hresp
        simp [hresp, this]
  · intro s hlen
    rw [truncatePayload, if_neg hlen]
  · intro s hlen
    constructor
    · rw [truncatePayload, if_pos hlen]
    · rw [truncatePayload, if_pos hlen]
      show ((jsTake s 120000).data ++ ("\n...TRUNCATED" : String).data).length = 120013
      rw [List.length_append]
      show (s.data.take 120000).length + 13 = 120013
      rw [List.length_take]
      have : s.data.length = s.length := rfl
      omega

/-- C4 instantiated: with a prior maximo trace entry carrying a short
response, the summarize input routes to the AI summarization of that stored
payload, issuing no backend query. -/
theorem summarize_routes_last_trace_witness :
    routeMaximo {} c4Store "openai" "" none none "" "summarize the last maximo results"
      = .summarize (truncatePayload (JsValue.stringify (.str "maximo rows")))
          (summarizeChatArgs {} "openai" "" none none
            (truncatePayload (JsValue.stringify (.str "maximo rows")))) :=
  (summarize_routes_last_trace {} c4Store "openai" "" none none ""
      "summarize the last maximo results" (by decide) (by decide)).1
    (.str "maximo rows") rfl rfl

end MasGateway

namespace MasGateway

/-- C5: the query heuristics are deterministic on the lower-cased input:
"show me all corrective work orders" classifies to the work-order object
type with the CORRECTIVE filter and page size 100; "show me all locations"
classifies to the location object type with no filter; and an input whose
trimmed form begins with "/" bypasses the heuristics entirely and is issued
as a direct backend call. -/
theorem heuristics_classification (secrets : Secrets) (store : TraceStore)
    (provider modelIn : String) (temp : Option Rat) (system : Option String) :
    routeMaximo secrets store provider modelIn temp system ""
        "show me all corrective work orders"
      = .query "mxapiwo" woCorrectiveWhere woSelect 100
    ∧ strIncludes woCorrectiveWhere "CORRECTIVE" = true
    ∧ routeMaximo secrets store provider modelIn temp system "" "show me all locations"
      = .query "mxapilocation" "" "location,description,parent,siteid,type" 50
    ∧ (∀ text, jsStartsWith (jsTrim text) "/" = true →
        routeMaximo secrets store provider modelIn temp system "" text
          = .direct (jsTrim text)) := by
  refine ⟨rfl, by decide, rfl, ?_⟩
  intro text h
  rw [routeMaximo]
  simp only [h, if_true]

/-- C5 instantiated: a literal path input is issued verbatim as a direct
backend call. -/
theorem heuristics_classification_witness :
    routeMaximo {} (emptyStore 500) "openai" "" none none "" "/api/os/mxapiasset"
      = .direct (jsTrim "/api/os/mxapiasset") :=
  (heuristics_classification {} (emptyStore 500) "openai" "" none none).2.2.2
    "/api/os/mxapiasset" (by decide)

end MasGateway

namespace MasGateway

theorem dedupGo_subset : ∀ (l seen : List String) (x : String), x ∈ dedupGo seen l → x ∈ l := by
  intro l
  induction l with
  | nil => intro seen x h; simp [dedupGo] at h
  | cons a t ih =>
    intro seen x h
    simp only [dedupGo] at h
    by_cases hc : seen.contains a
    · rw [if_pos hc] at h
      exact List.mem_cons_of_mem a (ih seen x h)
    · rw [if_neg hc] at h
      rcases List.mem_cons.mp h with h1 | h1
      · rw [h1]; exact List.mem_cons_self a t
      · exact List.mem_cons_of_mem a (ih (a :: seen) x h1)

/-- C6: for the filtered provider (openai), the ids matching the modern
chat/reasoning pattern and free of legacy markers are kept; when that
preferred subset is empty the deduplicated unfiltered set is used instead;
the final list is sorted with the numeric-aware comparison, every returned
id comes from the input, and on the spec's example the legacy id is excluded
and the output sorted. -/
theorem filterModelIds_openai_spec (ids : List String) :
    filterModelIds "openai" ["gpt-4o", "text-davinci-003", "gpt-4.1-mini"]
        = ["gpt-4.1-mini", "gpt-4o"]
    ∧ List.Sorted natLe (filterModelIds "openai" ids)
    ∧ (∀ x ∈ filterModelIds "openai" ids, x ∈ ids ∧ x ≠ "")
    ∧ ((∃ y ∈ jsSetDedup (ids.filter (fun s => s ≠ "")), modernOpenAiId y = true) →
        ∀ x ∈ filterModelIds "openai" ids, modernOpenAiId x = true)
    ∧ ((∀ y ∈ jsSetDedup (ids.filter (fun s => s ≠ "")), modernOpenAiId y = false) →
        List.Perm (filterModelIds "openai" ids)
          (jsSetDedup (ids.filter (fun s => s ≠ "")))) := by
  have hunf : filterModelIds "openai" ids
      = sortModelIds
          (if ((jsSetDedup (ids.filter (fun s => s ≠ ""))).filter modernOpenAiId).isEmpty
           then jsSetDedup (ids.filter (fun s => s ≠ ""))
           else (jsSetDedup (ids.filter (fun s => s ≠ ""))).filter modernOpenAiId) := by
    simp [filterModelIds]
  refine ⟨by decide, ?_, ?_, ?_, ?_⟩
  · rw [hunf]
    exact List.sorted_insertionSort natLe _
  · intro x hx
    rw [hunf, sortModelIds, List.mem_insertionSort] at hx
    have hx2 : x ∈ jsSetDedup (ids.filter (fun s => s ≠ "")) := by
      by_cases he : ((jsSetDedup (ids.filter (fun s => s ≠ ""))).filter modernOpenAiId).isEmpty
      · rw [if_pos he] at hx; exact hx
      · rw [if_neg he] at hx; exact (List.mem_filter.mp hx).1
    have hin := dedupGo_subset _ [] x hx2
    have hf := List.mem_filter.mp hin
    exact ⟨hf.1, of_decide_eq_true hf.2⟩
  · intro hex x hx
    obtain ⟨y, hy, hmy⟩ := hex
    rw [hunf, sortModelIds, List.mem_insertionSort] at hx
    have hne : ¬((jsSetDedup (ids.filter (fun s => s ≠ ""))).filter modernOpenAiId).isEmpty := by
      rw [List.isEmpty_iff]
      intro hnil
      have hmem : y ∈ (jsSetDedup (ids.filter (fun s => s ≠ ""))).filter modernOpenAiId :=
        List.mem_filter.mpr ⟨hy, hmy⟩
      rw [hnil] at hmem
      simp at hmem
    rw [if_neg hne] at hx
    exact (List.mem_filter.mp hx).2
  · intro hall
    have he : ((jsSetDedup (ids.filter (fun s => s ≠ ""))).filter modernOpenAiId).isEmpty := by
      rw [List.isEmpty_iff]
      refine List.filter_eq_nil_iff.mpr ?_
      intro a ha
      simp [hall a ha]
    rw [hunf, if_pos he, sortModelIds]
    exact List.perm_insertionSort natLe _

/-- C6 instantiated: the kept id "gpt-4o" indeed comes from the raw input
and matches the modern pattern. -/
theorem filterModelIds_openai_witness :
    ("gpt-4o" ∈ (["gpt-4o", "text-davinci-003", "gpt-4.1-mini"] : List String)
      ∧ "gpt-4o" ≠ "")
    ∧ modernOpenAiId "gpt-4o" = true :=
  ⟨(filterModelIds_openai_spec ["gpt-4o", "text-davinci-003", "gpt-4.1-mini"]).2.2.1
      "gpt-4o" (by decide),
   (filterModelIds_openai_spec ["gpt-4o", "text-davinci-003", "gpt-4.1-mini"]).2.2.2.1
      ⟨"gpt-4o", by decide, by decide⟩ "gpt-4o" (by decide)⟩

end MasGateway
